import Mathlib

/-!
Shallow embedding of the `rickmark/badusb` core: the GPT tracker (`src/gpt.py`)
and the injection engine (`src/injector.py`).

Modelling conventions:
* Python `bytes`/`str` buffers are `List Nat` (byte values / UTF-16 code units);
  partition names and the decoded `name` fields are lists of little-endian
  UTF-16 code units (the BOM/surrogate handling of the Python codec is not
  modelled; the 72-byte name fields of interest contain plain BMP characters).
* Python exceptions are the `PyErr` error type of an `Except` result; the
  distinct constructors record which runtime error the interpreter would raise
  (`GPTError` for the three header validation failures, `struct.error` for a
  wrong-sized buffer handed to `struct.unpack`, `TypeError` for calling a
  `dict`, `KeyError` for a missing key, `AttributeError` for `None.attr`).
* The filesystem behind `open(...).read` is a total map `String → List Nat`
  from filename to file contents (no claim here concerns missing files).
* The process-global `gpt.READS` list is threaded explicitly: operations take
  the current snapshot history and return the (possibly extended) history.
-/

set_option maxRecDepth 16384

namespace BadUSB

/-- Python runtime errors distinguished by this model. -/
inductive PyErr where
  | typeError
  | keyError
  | attrError
  | structError
  | gptBadSignature
  | gptBadRevision
  | gptBadHeaderSize
deriving DecidableEq, Repr

/-- Python slice `s[:b]` for an arbitrary (possibly negative) bound `b`,
as used by `data[:self.byte - offset]` in `BaseInject.modify`. -/
def pyTake (s : List Nat) (b : Int) : List Nat :=
  if 0 ≤ b then s.take b.toNat else s.take ((s.length : Int) + b).toNat

/-- Little-endian unsigned integer decoding of a byte list
(`struct.unpack` `<L` / `<Q` fields). -/
def leNat : List Nat → Nat
  | [] => 0
  | b :: rest => b + 256 * leNat rest

/-- Little-endian UTF-16 code units of a byte list (`bytes.decode('utf-16')`
at the code-unit level). -/
def u16le : List Nat → List Nat
  | b0 :: b1 :: rest => (b0 + 256 * b1) :: u16le rest
  | _ => []

/-- The 8 ASCII bytes of `b"EFI PART"`. -/
def efiSig : List Nat := [69, 70, 73, 32, 80, 65, 82, 84]

/-- Record `GPTHeader` decoded by `gpt.read_header` from the 92-byte
`GPT_HEADER_FORMAT` (`<8s4sLL4xQQQQ16sQLLL`).  `disk_guid` is kept as its raw
16 bytes (the UUID string rendering is injective and not used by any claim). -/
structure GPTHeader where
  signature : List Nat
  revision : List Nat
  header_size : Nat
  crc32 : Nat
  current_lba : Nat
  backup_lba : Nat
  first_usable_lba : Nat
  last_usable_lba : Nat
  disk_guid : List Nat
  part_entry_start_lba : Nat
  num_part_entries : Nat
  part_entry_size : Nat
  crc32_part_array : Nat
deriving DecidableEq, Repr

/-- Model of `gpt.read_header(fp)` over the byte stream `data` (stream position 0,
`lba_size = 512`, the only value used by the repository): seek past the
protective MBR, `struct.unpack` the 92-byte header (raising `struct.error`
unless exactly 92 bytes are available), then validate signature, revision and
`header_size`, raising `GPTError` on the first failing check. -/
def read_header (data : List Nat) : Except PyErr GPTHeader :=
  let chunk := (data.drop 512).take 92
  if chunk.length ≠ 92 then .error .structError
  else
    let signature := chunk.take 8
    let revision := (chunk.drop 8).take 4
    let header_size := leNat ((chunk.drop 12).take 4)
    if signature ≠ efiSig then .error .gptBadSignature
    else if revision ≠ [0, 0, 1, 0] then .error .gptBadRevision
    else if header_size < 92 then .error .gptBadHeaderSize
    else .ok
      { signature := signature
        revision := revision
        header_size := header_size
        crc32 := leNat ((chunk.drop 16).take 4)
        current_lba := leNat ((chunk.drop 24).take 8)
        backup_lba := leNat ((chunk.drop 32).take 8)
        first_usable_lba := leNat ((chunk.drop 40).take 8)
        last_usable_lba := leNat ((chunk.drop 48).take 8)
        disk_guid := (chunk.drop 56).take 16
        part_entry_start_lba := leNat ((chunk.drop 72).take 8)
        num_part_entries := leNat ((chunk.drop 80).take 4)
        part_entry_size := leNat ((chunk.drop 84).take 4)
        crc32_part_array := leNat ((chunk.drop 88).take 4) }

/-- One `GPTPartition` record of the 128-byte `GPT_PARTITION_FORMAT`
(`<16s16sQQQ72s`), after the `_replace` post-processing of
`gpt.read_partitions`: `type`/`unique` are kept as their raw 16 GUID bytes,
`name` is the UTF-16 decode of the 72-byte name field truncated at the first
NUL code unit (`.decode('utf-16').split(chr(0), 1)[0]`), `index` is the
1-based slot index. -/
structure GPTPartition where
  type : List Nat
  unique : List Nat
  first_lba : Nat
  last_lba : Nat
  flags : Nat
  name : List Nat
  index : Nat
deriving DecidableEq, Repr

/-- Decode one 128-byte partition-array record (the body of the
`gpt.read_partitions` loop after the length check). -/
def entryOfChunk (chunk : List Nat) (idx : Nat) : GPTPartition :=
  { type := chunk.take 16
    unique := (chunk.drop 16).take 16
    first_lba := leNat ((chunk.drop 32).take 8)
    last_lba := leNat ((chunk.drop 40).take 8)
    flags := leNat ((chunk.drop 48).take 8)
    name := (u16le ((chunk.drop 56).take 72)).takeWhile (fun u => u ≠ 0)
    index := idx }

/-- The loop of `gpt.read_partitions`: `fh.read(part_entry_size)` chunks taken
sequentially from `stream`; stop without error when fewer than 128 bytes
remain (`len(data) < struct.calcsize(fmt)`); `struct.unpack` raises
`struct.error` when the chunk is not exactly 128 bytes; skip (but still
consume) any record whose 16-byte type GUID is all zero. -/
def read_partitions_from (entry_size : Nat) :
    List Nat → Nat → Nat → Except PyErr (List GPTPartition)
  | _, _, 0 => .ok []
  | stream, idx, n + 1 =>
    let chunk := stream.take entry_size
    if chunk.length < 128 then .ok []
    else if chunk.length ≠ 128 then .error .structError
    else if chunk.take 16 = List.replicate 16 0 then
      read_partitions_from entry_size (stream.drop entry_size) (idx + 1) n
    else
      match read_partitions_from entry_size (stream.drop entry_size) (idx + 1) n with
      | .error e => .error e
      | .ok rest => .ok (entryOfChunk chunk idx :: rest)

/-- Model of `gpt.read_partitions(fp, header)` (`lba_size = 512`): seek to
`part_entry_start_lba * 512` and decode `num_part_entries` records. -/
def read_partitions (data : List Nat) (h : GPTHeader) : Except PyErr (List GPTPartition) :=
  read_partitions_from h.part_entry_size (data.drop (h.part_entry_start_lba * 512)) 1
    h.num_part_entries

/-- The `gpt.Partition` class: `first_byte = 512 * first_lba`,
`last_byte = 512 * last_lba`. -/
structure Partition where
  name : List Nat
  flags : Nat
  first_byte : Nat
  last_byte : Nat
  unique : List Nat
  type : List Nat
deriving DecidableEq, Repr

/-- Model of `gpt.Partition.from_gpt(part)`. -/
def Partition.from_gpt (p : GPTPartition) : Partition :=
  { name := p.name
    flags := p.flags
    first_byte := 512 * p.first_lba
    last_byte := 512 * p.last_lba
    unique := p.unique
    type := p.type }

/-- One entry of `gpt.READS`: the dict `{i.name: Partition.from_gpt(i) ...}`
modelled as an insertion-ordered association list. -/
abbrev Snapshot := List (List Nat × Partition)

/-- Model of `gpt.parse(data, offset)` over an explicit history: a no-op away from
offset 0; at offset 0 it decodes header and partitions — any exception
propagates to the caller with the history unchanged — and on success appends
one snapshot dict to `READS`. -/
def parse (reads : List Snapshot) (data : List Nat) (offset : Nat) :
    Except PyErr Unit × List Snapshot :=
  if offset ≠ 0 then (.ok (), reads)
  else
    match read_header data with
    | .error e => (.error e, reads)
    | .ok header =>
      match read_partitions data header with
      | .error e => (.error e, reads)
      | .ok parts => (.ok (), reads ++ [parts.map (fun i => (i.name, Partition.from_gpt i))])

/-- Iterated observation: the history after a sequence of intercepted reads,
each delivered to `gpt.parse` (a failing parse leaves the history as it was;
the exception goes to that read's caller and the process continues). -/
def observeSeq (obs : List (List Nat × Nat)) (reads : List Snapshot) : List Snapshot :=
  obs.foldl (fun rs d => (parse rs d.1 d.2).2) reads

/-- The `replace` configuration dict of an injection rule
(`{source, value?, filename?, start?, length?}`); `none` models an absent
key, read through `dict.get` with a default. -/
structure ReplaceCfg where
  source : String
  value : List Nat := []
  filename : String := ""
  start : Option Nat := none
  length : Option Nat := none
deriving DecidableEq, Repr

/-- The `trigger` dict of a `byte_read_count` rule: `byte`, `value`
(threshold) and the mutable `count`.  `count` is `Option` because the key is
only present when the configuration supplies it: `ByteTriggerInject.
init_trigger` initialises it only when `trigger['type'] == 'read_count'`,
which never holds for rules registered under the `'byte_read_count'` key of
`INJECT_TYPES`; reading an absent key raises `KeyError`. -/
structure ByteTrigger where
  byte : Int
  value : Nat
  count : Option Nat := none
deriving DecidableEq, Repr

/-- The `trigger` dict of a `partition_replace` rule. -/
structure PartTrigger where
  partition : List Nat
  value : Nat
  count : Option Nat := none
deriving DecidableEq, Repr

/-- Instance state of a `PartitionReplaceInject`: its trigger dict, the
cached `self.part` (initially `None`) and `self.initial_num_gpts`
(`len(gpt.READS)` at construction time). -/
structure PartState where
  trigger : PartTrigger
  part : Option Partition := none
  initial_num_gpts : Nat := 0
deriving DecidableEq, Repr

/-- One configured injection rule: a plain `BaseInject` (target byte `-1`,
always triggered), a `ByteTriggerInject`, or a `PartitionReplaceInject`. -/
inductive Rule where
  | base (replace : ReplaceCfg)
  | byteT (replace : ReplaceCfg) (trigger : ByteTrigger)
  | partT (replace : ReplaceCfg) (st : PartState)
deriving DecidableEq, Repr

/-- Model of `BaseInject.read(offset, length)` over the filesystem map `fs`: the
`'str'` source returns the configured value; the `'file'` source seeks to
`replace.get('start', offset)` and reads `replace.get('length', length)`
bytes; every other source hits `self.replace('source')` — calling a dict —
and raises `TypeError` before the `'cow'` comparison or the `""` fallback
can be reached. -/
def BaseInject.read (fs : String → List Nat) (r : ReplaceCfg) (offset length : Nat) :
    Except PyErr (List Nat) :=
  if r.source = "str" then .ok r.value
  else if r.source = "file" then
    .ok (((fs r.filename).drop (r.start.getD offset)).take (r.length.getD length))
  else .error .typeError

/-- Model of `BaseInject.modify(offset, length, data)` for a rule whose target byte
property evaluates to `byte`: splice `read(offset, length)` into the window.
(The concatenation `"%s%s%s"` is modelled as list append.) -/
def BaseInject.modify (fs : String → List Nat) (r : ReplaceCfg) (byte : Int)
    (offset length : Nat) (data : List Nat) : Except PyErr (List Nat) :=
  let pre := pyTake data (byte - offset)
  match BaseInject.read fs r offset length with
  | .error e => .error e
  | .ok content =>
    let injecting := pyTake content ((length : Int) - pre.length)
    .ok (pre ++ injecting ++ (data.take length).drop (pre.length + injecting.length))

/-- Property `PartitionReplaceInject.gpt`: `None` while `len(gpt.READS)` still equals
`initial_num_gpts`, otherwise `gpt.READS[initial_num_gpts]` — the first
snapshot appended after the rule's construction. -/
def PartitionReplaceInject.gptSnap (reads : List Snapshot) (initial : Nat) : Option Snapshot :=
  if reads.length = initial then none else reads[initial]?

/-- The `right_byte(offset, length)` side-effecting predicate of a rule:
returns whether the rule's byte-range matches and the rule's updated state.

* `BaseInject` / `ByteTriggerInject`: `offset <= self.byte < offset + length`
  with `self.byte = -1` resp. `trigger['byte']`; no state change.
* `PartitionReplaceInject`: when `self.gpt` is truthy (a snapshot exists at
  the birth index and is a non-empty dict) the code evaluates
  `self.gpt.get(self.trigger('partition'))`, calling the trigger dict —
  `TypeError`.  Otherwise `self.part` (never yet assigned) decides: a cached
  partition containing `offset` matches, and `trigger['count']` is
  incremented exactly when the read's range covers `part.first_byte`. -/
def rightByteStep (reads : List Snapshot) (offset length : Nat) :
    Rule → Except PyErr (Bool × Rule)
  | .base r => .ok (decide ((offset : Int) ≤ -1 ∧ (-1 : Int) < (offset : Int) + length), .base r)
  | .byteT r t =>
    .ok (decide ((offset : Int) ≤ t.byte ∧ t.byte < (offset : Int) + length), .byteT r t)
  | .partT r st =>
    if ((PartitionReplaceInject.gptSnap reads st.initial_num_gpts).getD []).isEmpty = false then
      .error .typeError
    else
      match st.part with
      | some p =>
        if p.first_byte ≤ offset ∧ offset < p.last_byte then
          if offset ≤ p.first_byte ∧ p.first_byte < offset + length then
            match st.trigger.count with
            | none => .error .keyError
            | some c =>
              .ok (true, .partT r { st with trigger := { st.trigger with count := some (c + 1) } })
          else .ok (true, .partT r st)
        else .ok (false, .partT r st)
      | none => .ok (false, .partT r st)

/-- The `triggered` property of a rule: whether it currently fires, plus the
rule's updated state.  `ByteTriggerInject.triggered` reads `trigger['count']`,
increments it, and compares the pre-increment value against the threshold;
`PartitionReplaceInject.triggered` compares `count > value` without
incrementing; `BaseInject.triggered` is `True`. -/
def triggeredStep : Rule → Except PyErr (Bool × Rule)
  | .base r => .ok (true, .base r)
  | .byteT r t =>
    match t.count with
    | none => .error .keyError
    | some c => .ok (decide (t.value ≤ c), .byteT r { t with count := some (c + 1) })
  | .partT r st =>
    match st.trigger.count with
    | none => .error .keyError
    | some c => .ok (decide (st.trigger.value < c), .partT r st)

/-- Model of the `modify(offset, length, data)` method of a rule.  For `PartitionReplaceInject`
the window is re-read from the shadow file at `offset - part.first_byte`
(`self.part` is `None` until `right_byte` assigns it — `AttributeError`
otherwise; matched reads satisfy `part.first_byte <= offset`, so the Python
seek offset is the truncated subtraction), and a short shadow read is
backfilled with `data[len(modified):]`.  (The `self.replace['start']`
assignment is not tracked: partition `modify` never reads it back.) -/
def Rule.modify (fs : String → List Nat) (offset length : Nat) (data : List Nat) :
    Rule → Except PyErr (List Nat)
  | .base r => BaseInject.modify fs r (-1) offset length data
  | .byteT r t => BaseInject.modify fs r t.byte offset length data
  | .partT r st =>
    match st.part with
    | none => .error .attrError
    | some p =>
      let modified := ((fs r.filename).drop (offset - p.first_byte)).take length
      if modified.length < length then .ok (modified ++ data.drop modified.length)
      else .ok modified

/-- Comprehension-style effectful map, as in `[f(x) for x in xs]`: evaluate in order, letting the
first exception propagate. -/
def mapME (f : α → Except PyErr β) : List α → Except PyErr (List β)
  | [] => .ok []
  | a :: as =>
    match f a with
    | .error e => .error e
    | .ok b =>
      match mapME f as with
      | .error e => .error e
      | .ok bs => .ok (b :: bs)

/-- Model of `Injector.get_injects(path, length, offset)` for the rules registered
under one path: probe `right_byte` on every rule (list comprehension — every
rule's probe runs, with its side effects, before the emptiness test), then
evaluate `triggered` on exactly the matching rules.  Returns the selected
(matched and triggered) rules in registration order together with the updated
full rule list. -/
def Injector.get_injects (reads : List Snapshot) (same_path : List Rule)
    (length offset : Nat) : Except PyErr (List Rule × List Rule) :=
  if same_path.isEmpty then .ok ([], same_path)
  else
    match mapME (rightByteStep reads offset length) same_path with
    | .error e => .error e
    | .ok step1 =>
      if (step1.filter (fun x => x.1)).isEmpty then .ok ([], step1.map (fun x => x.2))
      else
        match mapME (fun mr =>
            if mr.1 then triggeredStep mr.2 else .ok (false, mr.2)) step1 with
        | .error e => .error e
        | .ok step2 =>
          .ok ((step2.filter (fun x => x.1)).map (fun x => x.2), step2.map (fun x => x.2))

/-- The fold of `Injector.handle`: each triggered rule's `modify` output is
the next rule's input. -/
def foldModify (fs : String → List Nat) (offset length : Nat) :
    List Rule → List Nat → Except PyErr (List Nat)
  | [], d => .ok d
  | r :: rs, d =>
    match Rule.modify fs offset length d r with
    | .error e => .error e
    | .ok d2 => foldModify fs offset length rs d2

/-- Model of `Injector.handle(path, length, offset, data)` for one path's rules:
select the triggered rules and fold their `modify` over the buffer.  Returns
the final buffer and the updated rule list. -/
def Injector.handle (fs : String → List Nat) (reads : List Snapshot)
    (same_path : List Rule) (length offset : Nat) (data : List Nat) :
    Except PyErr (List Nat × List Rule) :=
  match Injector.get_injects reads same_path length offset with
  | .error e => .error e
  | .ok (sel, all) =>
    match foldModify fs offset length sel data with
    | .error e => .error e
    | .ok final => .ok (final, all)

/-- Modelled from the spec of the splice step (claim C2 wording, for
comparison with the code): content truncated to at most `length - (b -
offset)` bytes, the trailing bytes taken after the truncated content. -/
def specSplice (data content : List Nat) (b : Int) (offset length : Nat) : List Nat :=
  data.take (b - (offset : Int)).toNat ++
    content.take (length - (b - (offset : Int)).toNat) ++
    (data.take length).drop ((data.take (b - (offset : Int)).toNat).length +
      (content.take (length - (b - (offset : Int)).toNat)).length)

/-! Concrete fixtures used by the claim theorems and witnesses. -/

/-- Filesystem with empty files everywhere. -/
def fsNil : String → List Nat := fun _ => []

/-- Filesystem whose every file holds the two bytes `[1, 2]`. -/
def fsShadow2 : String → List Nat := fun _ => [1, 2]

/-- The buffer `b"ABCDEFGHIJ"`. -/
def data10 : List Nat := [65, 66, 67, 68, 69, 70, 71, 72, 73, 74]

/-- Replacement `Literal(b"XXX")`. -/
def rLit3 : ReplaceCfg := { source := "str", value := [88, 88, 88] }

/-- Replacement `Literal(b"XXXXXXXX")`. -/
def rLit8 : ReplaceCfg := { source := "str", value := List.replicate 8 88 }

/-- Replacement `Literal(b"XXXXXXXXX")` (9 bytes). -/
def rLit9 : ReplaceCfg := { source := "str", value := List.replicate 9 88 }

/-- Replacement dict of a partition-replace rule pointing at a shadow file. -/
def rShadow : ReplaceCfg := { source := "file", filename := "shadow" }

/-- Partition named `"ESP"` spanning bytes `[1024, 2048)`. -/
def espPartition : Partition :=
  { name := [69, 83, 80], flags := 0, first_byte := 1024, last_byte := 2048,
    unique := [], type := [] }

/-- Partition spanning bytes `[0, 2048)` (used by the C1 counterexample). -/
def part0 : Partition :=
  { name := [69, 83, 80], flags := 0, first_byte := 0, last_byte := 2048,
    unique := [], type := [] }

/-- Snapshot holding `espPartition` under its name. -/
def snapESP : Snapshot := [([69, 83, 80], espPartition)]

/-- State of a partition-replace rule whose `part` was (hypothetically)
resolved to `part0` and whose trigger dict has `count` present. -/
def stC1 : PartState :=
  { trigger := { partition := [69, 83, 80], value := 1, count := some 0 },
    part := some part0, initial_num_gpts := 0 }

/-- Freshly constructed partition-replace rule (birth generation count 0,
`part` unresolved). -/
def c4rule : Rule :=
  .partT rShadow
    { trigger := { partition := [69, 83, 80], value := 1, count := some 0 },
      part := none, initial_num_gpts := 0 }

/-- ByteReadCount trigger on byte 5 with threshold 1 and `count` present. -/
def btC5 : ByteTrigger := { byte := 5, value := 1, count := some 0 }

/-- ByteReadCount trigger on byte 100 with threshold 0 (always past
threshold) and `count` present. -/
def bt100 : ByteTrigger := { byte := 100, value := 0, count := some 0 }

/-- A synthetic valid 92-byte GPT header: signature `"EFI PART"`, revision
`0x00000100` little-endian, `header_size = 92`, partition array at LBA 2,
one 128-byte entry. -/
def header92 : List Nat :=
  efiSig ++ [0, 0, 1, 0] ++ [92, 0, 0, 0] ++ List.replicate 4 0 ++ List.replicate 4 0 ++
  List.replicate 8 0 ++ List.replicate 8 0 ++ List.replicate 8 0 ++ List.replicate 8 0 ++
  List.replicate 16 0 ++ [2, 0, 0, 0, 0, 0, 0, 0] ++ [1, 0, 0, 0] ++ [128, 0, 0, 0] ++
  [0, 0, 0, 0]

/-- A synthetic 128-byte partition entry: non-zero type GUID, `first_lba = 2`,
`last_lba = 4`, name field `"ESP"` padded with NULs. -/
def entry128 : List Nat :=
  (1 :: List.replicate 15 0) ++ List.replicate 16 0 ++ [2, 0, 0, 0, 0, 0, 0, 0] ++
  [4, 0, 0, 0, 0, 0, 0, 0] ++ List.replicate 8 0 ++
  ([69, 0, 83, 0, 80, 0] ++ List.replicate 66 0)

/-- A synthetic device image: protective MBR sector, the header at LBA 1,
padding, and the partition array at LBA 2. -/
def synthStream : List Nat :=
  List.replicate 512 0 ++ header92 ++ List.replicate 420 0 ++ entry128

/-- The header decoded from `synthStream`. -/
def synthHdr : GPTHeader :=
  { signature := efiSig, revision := [0, 0, 1, 0], header_size := 92, crc32 := 0,
    current_lba := 0, backup_lba := 0, first_usable_lba := 0, last_usable_lba := 0,
    disk_guid := List.replicate 16 0, part_entry_start_lba := 2,
    num_part_entries := 1, part_entry_size := 128, crc32_part_array := 0 }

/-- The partition entry decoded from `entry128`. -/
def espEntry : GPTPartition := entryOfChunk entry128 1

/-- The `gpt.Partition` built from `espEntry`: byte range
`[first_lba * 512, last_lba * 512) = [1024, 2048)`. -/
def espPartitionDecoded : Partition :=
  { name := [69, 83, 80], flags := 0, first_byte := 512 * 2, last_byte := 512 * 4,
    unique := List.replicate 16 0, type := 1 :: List.replicate 15 0 }

/-! Claim theorems. -/

/-- C3 (counterexample): an offset-0 observation of 604 zero bytes fails GPT
decoding (bad signature), and `parse` does NOT absorb the failure — it
returns the `GPTError` to its caller, so the intercepted read fails.  This
refutes the claim that the tracker never raises to the caller of the read. -/
theorem c3_counterexample :
    parse [] (List.replicate 604 0) 0 = (.error .gptBadSignature, []) := by
  rfl

/-- C3 (amended): for every offset-0 observation whose bytes fail GPT header
decoding, `parse` propagates that decode error to its caller — the
intercepted read fails with it — while appending no snapshot: the history is
returned unchanged. -/
theorem c3_decode_error_propagates (reads : List Snapshot) (data : List Nat) (e : PyErr)
    (h : read_header data = .error e) :
    parse reads data 0 = (.error e, reads) := by
  simp [parse, h]

theorem c3_witness :
    parse [[]] (List.replicate 600 0) 0 = (.error .structError, [[]]) :=
  c3_decode_error_propagates [[]] (List.replicate 600 0) .structError (by rfl)

/-- C4 (code bug): the byte-range predicate of a `PartitionRelative` rule can
never resolve its partition — once a snapshot exists at the rule's birth
index (here one naming `"ESP"` over bytes `[1024, 2048)`, probed by a read of
`[1024, 1536)` that the claim says must match and count), `right_byte`
evaluates `self.gpt.get(self.trigger('partition'))`, calling the trigger
dict, and raises `TypeError`; `match_and_advance` aborts with the same
error instead of returning the rule. -/
theorem c4_partition_rule_raises :
    rightByteStep [snapESP] 1024 512 c4rule = .error .typeError ∧
    Injector.get_injects [snapESP] [c4rule] 512 1024 = .error .typeError := by
  exact ⟨rfl, rfl⟩

/-- C10: for every rule whose replacement-source tag is neither `'str'` nor
`'file'` (in particular `'cow'`), `BaseInject.read` raises `TypeError` for
all offsets and lengths: the third branch calls `self.replace('source')` —
subscripting was intended — so the `'cow'` branch and the empty-string
fallback can never produce content. -/
theorem c10_nonliteral_source_read_raises (fs : String → List Nat) (r : ReplaceCfg)
    (offset length : Nat) (h1 : r.source ≠ "str") (h2 : r.source ≠ "file") :
    BaseInject.read fs r offset length = .error .typeError := by
  simp [BaseInject.read, h1, h2]

theorem c10_witness :
    BaseInject.read (fun _ => [1, 2, 3]) { source := "cow", filename := "f" } 0 5 =
      .error .typeError :=
  c10_nonliteral_source_read_raises (fun _ => [1, 2, 3])
    { source := "cow", filename := "f" } 0 5 (by decide) (by decide)

/-- C7: over any stream long enough for the 92-byte unpack (at least 604
bytes), the header decode fails with a `GPTError` exactly when the 8-byte
signature differs from `"EFI PART"`, or the 4-byte revision differs from
`0x00,0x00,0x01,0x00`, or `header_size < 92`; a stream passing all three
checks decodes to a header without error. -/
theorem c7_header_validation (data : List Nat) (h : 604 ≤ data.length) :
    ((read_header data = .error .gptBadSignature ∨
        read_header data = .error .gptBadRevision ∨
        read_header data = .error .gptBadHeaderSize) ↔
      (((data.drop 512).take 92).take 8 ≠ efiSig ∨
        (((data.drop 512).take 92).drop 8).take 4 ≠ [0, 0, 1, 0] ∨
        leNat ((((data.drop 512).take 92).drop 12).take 4) < 92)) ∧
    (((data.drop 512).take 92).take 8 = efiSig →
      (((data.drop 512).take 92).drop 8).take 4 = [0, 0, 1, 0] →
      92 ≤ leNat ((((data.drop 512).take 92).drop 12).take 4) →
      ∃ hd, read_header data = .ok hd) := by
  have hlen : ((data.drop 512).take 92).length = 92 := by
    rw [List.length_take, List.length_drop]
    omega
  constructor
  · by_cases hs : ((data.drop 512).take 92).take 8 = efiSig
    · by_cases hr : (((data.drop 512).take 92).drop 8).take 4 = [0, 0, 1, 0]
      · by_cases hz : leNat ((((data.drop 512).take 92).drop 12).take 4) < 92
        · simp [read_header, hlen, hs, hr, hz]
        · simp [read_header, hlen, hs, hr, hz]
      · simp [read_header, hlen, hs, hr]
    · simp [read_header, hlen, hs]
  · intro hs hr hz
    have hz' : ¬ leNat ((((data.drop 512).take 92).drop 12).take 4) < 92 := by omega
    cases hrh : read_header data with
    | error e =>
      exfalso
      revert hrh
      simp [read_header, hlen, hs, hr, hz']
    | ok hd => exact ⟨hd, rfl⟩

theorem c7_witness : ∃ hd, read_header synthStream = .ok hd :=
  (c7_header_validation synthStream (by decide)).2 (by rfl) (by rfl) (by decide)

/-- Helper for C9: a single `parse` call never rewrites existing history —
its resulting history is the input history plus a (possibly empty) tail. -/
theorem parse_appends (reads : List Snapshot) (data : List Nat) (offset : Nat) :
    ∃ tail, (parse reads data offset).2 = reads ++ tail := by
  unfold parse
  by_cases h0 : offset ≠ 0
  · rw [if_pos h0]
    exact ⟨[], by simp⟩
  · rw [if_neg h0]
    cases hrh : read_header data with
    | error e => exact ⟨[], by simp⟩
    | ok hd =>
      cases hrp : read_partitions data hd with
      | error e => exact ⟨[], by simp [hrp]⟩
      | ok parts =>
        exact ⟨[parts.map (fun i => (i.name, Partition.from_gpt i))], by simp [hrp]⟩

/-- C9: `parse` (the observe operation) is a no-op for every call with a
non-zero offset; across any sequence of observations the history is
append-only — the old history is a prefix of the new one, so every
generation index keeps denoting the same snapshot — and the generation count
never decreases.  (In the embedding the history is explicit state that only
`parse` constructs; no other modelled operation produces a history.) -/
theorem c9_tracker_append_only :
    (∀ (reads : List Snapshot) (data : List Nat) (offset : Nat), offset ≠ 0 →
        parse reads data offset = (.ok (), reads)) ∧
    (∀ (obs : List (List Nat × Nat)) (reads : List Snapshot),
        ∃ tail, observeSeq obs reads = reads ++ tail) ∧
    (∀ (obs : List (List Nat × Nat)) (reads : List Snapshot) (i : Nat),
        i < reads.length → (observeSeq obs reads)[i]? = reads[i]?) ∧
    (∀ (obs : List (List Nat × Nat)) (reads : List Snapshot),
        reads.length ≤ (observeSeq obs reads).length) := by
  have h1 : ∀ (reads : List Snapshot) (data : List Nat) (offset : Nat), offset ≠ 0 →
      parse reads data offset = (.ok (), reads) := by
    intro reads data offset h
    simp [parse, h]
  have h2 : ∀ (obs : List (List Nat × Nat)) (reads : List Snapshot),
      ∃ tail, observeSeq obs reads = reads ++ tail := by
    intro obs
    induction obs with
    | nil => exact fun reads => ⟨[], by simp [observeSeq]⟩
    | cons d ds ih =>
      intro reads
      obtain ⟨t1, ht1⟩ := parse_appends reads d.1 d.2
      obtain ⟨t2, ht2⟩ := ih ((parse reads d.1 d.2).2)
      refine ⟨t1 ++ t2, ?_⟩
      show observeSeq ds ((parse reads d.1 d.2).2) = reads ++ (t1 ++ t2)
      rw [ht2, ht1, List.append_assoc]
  refine ⟨h1, h2, ?_, ?_⟩
  · intro obs reads i hi
    obtain ⟨tail, ht⟩ := h2 obs reads
    rw [ht]
    exact List.getElem?_append_left hi
  · intro obs reads
    obtain ⟨tail, ht⟩ := h2 obs reads
    rw [ht, List.length_append]
    omega

theorem c9_witness :
    parse [] [1, 2, 3] 7 = (.ok (), []) ∧
    (observeSeq [([], 0)] [snapESP])[0]? = [snapESP][0]? ∧
    ([snapESP] : List Snapshot).length ≤ (observeSeq [([], 0)] [snapESP]).length :=
  ⟨c9_tracker_append_only.1 [] [1, 2, 3] 7 (by decide),
   c9_tracker_append_only.2.2.1 [([], 0)] [snapESP] 0 (by decide),
   c9_tracker_append_only.2.2.2 [([], 0)] [snapESP]⟩

/-- C5: a `ByteReadCount` rule whose trigger dict carries a count `c`,
evaluated by `match_and_advance` (`get_injects`): on every read whose range
`[offset, offset + length)` contains `target_byte` the count is advanced by
exactly one — whether or not the rule fires — and the rule is returned as
triggered exactly when the stored number of byte-range observations `c` has
reached the threshold; the counter only grows, so the rule keeps firing on
every later matching read (level-triggered).  On a non-matching read the
count is untouched and the rule is not returned. -/
theorem c5_byte_read_count (reads : List Snapshot) (r : ReplaceCfg) (t : ByteTrigger)
    (c length offset : Nat) (hc : t.count = some c) :
    (((offset : Int) ≤ t.byte ∧ t.byte < (offset : Int) + length) →
      Injector.get_injects reads [.byteT r t] length offset =
        .ok (if t.value ≤ c
          then ([.byteT r { t with count := some (c + 1) }],
                [.byteT r { t with count := some (c + 1) }])
          else ([], [.byteT r { t with count := some (c + 1) }]))) ∧
    (¬ ((offset : Int) ≤ t.byte ∧ t.byte < (offset : Int) + length) →
      Injector.get_injects reads [.byteT r t] length offset = .ok ([], [.byteT r t])) := by
  constructor
  · intro hm
    by_cases hv : t.value ≤ c
    · simp [Injector.get_injects, mapME, rightByteStep, triggeredStep, hc, hm, hv]
    · simp [Injector.get_injects, mapME, rightByteStep, triggeredStep, hc, hm, hv]
  · intro hm
    simp [Injector.get_injects, mapME, rightByteStep, triggeredStep, hm]

theorem c5_witness :
    Injector.get_injects [] [.byteT rLit3 btC5] 10 0 =
      .ok ([], [.byteT rLit3 { btC5 with count := some 1 }]) := by
  have h := (c5_byte_read_count [] rLit3 btC5 0 10 0 rfl).1 (by decide)
  rw [if_neg (by decide)] at h
  exact h

/-- C8: a read matching no configured rule — every probed `right_byte` comes
back false — leaves the buffer unchanged: `handle` returns `raw` as-is.  And
a plain `BaseInject` (the `Unconditional` trigger) has target byte `-1`,
which lies in `[offset, offset + length)` for no unsigned offset, so its
byte-range probe is false on every read and such a rule alone never modifies
anything. -/
theorem c8_non_match_identity (fs : String → List Nat) (reads : List Snapshot)
    (rules : List Rule) (data : List Nat) (length offset : Nat)
    (step1 : List (Bool × Rule))
    (h1 : mapME (rightByteStep reads offset length) rules = .ok step1)
    (h2 : ∀ x ∈ step1, x.1 = false) :
    Injector.handle fs reads rules length offset data =
      .ok (data, step1.map (fun x => x.2)) ∧
    ∀ (r : ReplaceCfg) (off len : Nat),
      rightByteStep reads off len (.base r) = .ok (false, .base r) := by
  constructor
  · have hfilter : step1.filter (fun x => x.1) = [] := by
      rw [List.filter_eq_nil_iff]
      intro a ha
      simp [h2 a ha]
    cases rules with
    | nil =>
      obtain rfl : step1 = [] := by
        simp only [mapME] at h1
        exact (Except.ok.injEq _ _).mp h1.symm
      simp [Injector.handle, Injector.get_injects, foldModify]
    | cons r0 rs =>
      simp [Injector.handle, Injector.get_injects, h1, hfilter, foldModify]
  · intro r off len
    have hfalse : decide ((off : Int) ≤ -1 ∧ (-1 : Int) < (off : Int) + len) = false := by
      rw [decide_eq_false_iff_not]
      rintro ⟨ha, -⟩
      omega
    simp [rightByteStep, hfalse]

theorem c8_witness :
    Injector.handle fsNil [] [.byteT rLit3 bt100] 5 0 [1, 2, 3] =
      .ok ([1, 2, 3], [.byteT rLit3 bt100]) :=
  (c8_non_match_identity fsNil [] [.byteT rLit3 bt100] [1, 2, 3] 5 0
      [(false, .byteT rLit3 bt100)] (by rfl)
      (by rintro x hx; simp only [List.mem_singleton] at hx; subst hx; rfl)).1

/-- Helper shared by C1 and C2: normal form of a successful splice, directly
from the code — `pre = data[:b-offset]`, content truncated to
`length - len(pre)` bytes, trailing bytes `data[len(pre)+len(content):length]`. -/
theorem modify_splice_eq (fs : String → List Nat) (r : ReplaceCfg) (b : Int)
    (offset length : Nat) (data content : List Nat)
    (hread : BaseInject.read fs r offset length = .ok content)
    (h1 : (offset : Int) ≤ b) (h2 : b < (offset : Int) + length) :
    BaseInject.modify fs r b offset length data =
      .ok (data.take (b - (offset : Int)).toNat ++
        content.take (length - (data.take (b - (offset : Int)).toNat).length) ++
        (data.take length).drop ((data.take (b - (offset : Int)).toNat).length +
          (content.take (length - (data.take (b - (offset : Int)).toNat).length)).length)) := by
  have hb0 : 0 ≤ b - (offset : Int) := by omega
  have hblt : (b - (offset : Int)).toNat < length := by omega
  have hpre : pyTake data (b - (offset : Int)) = data.take (b - (offset : Int)).toNat := by
    rw [pyTake, if_pos hb0]
  have hprelt : (data.take (b - (offset : Int)).toNat).length < length := by
    rw [List.length_take]
    omega
  have hinj : pyTake content
        ((length : Int) - (data.take (b - (offset : Int)).toNat).length) =
      content.take (length - (data.take (b - (offset : Int)).toNat).length) := by
    rw [pyTake, if_pos (by omega)]
    congr 1
    omega
  simp only [BaseInject.modify, hread, hpre, hinj]

/-- C2 (counterexample): with `data = b"AB"` (shorter than `b - offset`),
`offset = 0`, `length = 10`, target byte 5 and a 9-byte literal replacement,
the code keeps `length - len(pre) = 8` content bytes — more than the
`length - (b - offset) = 5` the claim allows — so the output disagrees with
the claim's formula at this input. -/
theorem c2_counterexample :
    BaseInject.modify fsNil rLit9 5 0 10 [65, 66] = .ok ([65, 66] ++ List.replicate 8 88) ∧
    ([65, 66] ++ List.replicate 8 88) ≠ specSplice [65, 66] (List.replicate 9 88) 5 0 10 := by
  exact ⟨by rfl, by decide⟩

/-- C2 (amended): for a triggered splice rule with `offset ≤ b < offset +
length`, `modify` returns `data[0:b-offset]`, then the replacement content
truncated to at most `length - len(pre)` bytes (which equals
`length - (b - offset)` whenever `data` has at least `b - offset` bytes — in
that case the claim's formula holds verbatim), then the original trailing
bytes up to index `length`; in particular `b"ABCDEFGHIJ"` with
`Literal(b"XXX")` gives `b"ABCDEXXXIJ"` and with `Literal(b"XXXXXXXX")`
gives `b"ABCDEXXXXX"`. -/
theorem c2_splice_correct (fs : String → List Nat) (r : ReplaceCfg) (b : Int)
    (offset length : Nat) (data content : List Nat)
    (hread : BaseInject.read fs r offset length = .ok content)
    (h1 : (offset : Int) ≤ b) (h2 : b < (offset : Int) + length) :
    (BaseInject.modify fs r b offset length data =
      .ok (data.take (b - (offset : Int)).toNat ++
        content.take (length - (data.take (b - (offset : Int)).toNat).length) ++
        (data.take length).drop ((data.take (b - (offset : Int)).toNat).length +
          (content.take (length - (data.take (b - (offset : Int)).toNat).length)).length))) ∧
    ((b - (offset : Int)).toNat ≤ data.length →
      BaseInject.modify fs r b offset length data =
        .ok (specSplice data content b offset length)) ∧
    BaseInject.modify fsNil rLit3 5 0 10 data10 =
      .ok [65, 66, 67, 68, 69, 88, 88, 88, 73, 74] ∧
    BaseInject.modify fsNil rLit8 5 0 10 data10 =
      .ok ([65, 66, 67, 68, 69] ++ List.replicate 5 88) := by
  have hA := modify_splice_eq fs r b offset length data content hread h1 h2
  refine ⟨hA, ?_, by rfl, by rfl⟩
  intro hle
  have hlen' : (data.take (b - (offset : Int)).toNat).length = (b - (offset : Int)).toNat := by
    rw [List.length_take]
    omega
  rw [hA]
  simp only [specSplice, hlen']

theorem c2_witness :
    BaseInject.modify fsNil rLit3 5 0 10 data10 =
      .ok [65, 66, 67, 68, 69, 88, 88, 88, 73, 74] :=
  (c2_splice_correct fsNil rLit3 5 0 10 data10 [88, 88, 88] rfl (by decide) (by decide)).2.2.1

/-- C1 (counterexample): a `PartitionRelative` rule over partition
`[0, 2048)`, window `offset = 0`, `length = 4`, shadow file of 2 bytes, and
an input buffer of 5 bytes (at least `length`, as the claim asks): the
backfill `data[len(modified):]` is not capped at `length`, so the output has
5 bytes, not 4. -/
theorem c1_counterexample :
    Rule.modify fsShadow2 0 4 [9, 9, 9, 9, 9] (.partT rShadow stC1) = .ok [1, 2, 9, 9, 9] ∧
    4 ≤ ([9, 9, 9, 9, 9] : List Nat).length ∧
    ((fsShadow2 rShadow.filename).take 4).length < 4 ∧
    ([1, 2, 9, 9, 9] : List Nat).length ≠ 4 := by
  exact ⟨by rfl, by decide, by decide, by decide⟩

/-- C1 (amended): a triggered splice rule yields exactly `length` bytes
whenever the input buffer has at least `length` bytes; a `PartitionRelative`
rule yields exactly `length` bytes whenever the input buffer has exactly
`length` bytes (its backfill appends the whole remainder of the input, so
with a longer input the output has the input's length instead). -/
theorem c1_length_invariant :
    (∀ (fs : String → List Nat) (r : ReplaceCfg) (b : Int) (offset length : Nat)
        (data content : List Nat),
      BaseInject.read fs r offset length = .ok content →
      (offset : Int) ≤ b → b < (offset : Int) + length → length ≤ data.length →
      ∃ m, BaseInject.modify fs r b offset length data = .ok m ∧ m.length = length) ∧
    (∀ (fs : String → List Nat) (r : ReplaceCfg) (st : PartState) (p : Partition)
        (offset length : Nat) (data : List Nat),
      st.part = some p → data.length = length →
      ∃ m, Rule.modify fs offset length data (.partT r st) = .ok m ∧ m.length = length) := by
  constructor
  · intro fs r b offset length data content hread h1 h2 h3
    refine ⟨_, modify_splice_eq fs r b offset length data content hread h1 h2, ?_⟩
    have hblt : (b - (offset : Int)).toNat < length := by omega
    have hpre : (data.take (b - (offset : Int)).toNat).length < length := by
      rw [List.length_take]
      omega
    have hinj : (content.take (length - (data.take (b - (offset : Int)).toNat).length)).length ≤
        length - (data.take (b - (offset : Int)).toNat).length := by
      rw [List.length_take]
      omega
    simp only [List.length_append, List.length_drop, List.length_take]
    omega
  · intro fs r st p offset length data hp hlen
    simp only [Rule.modify, hp]
    by_cases hm : (((fs r.filename).drop (offset - p.first_byte)).take length).length < length
    · rw [if_pos hm]
      refine ⟨_, rfl, ?_⟩
      simp only [List.length_append, List.length_drop]
      omega
    · rw [if_neg hm]
      refine ⟨_, rfl, ?_⟩
      have : (((fs r.filename).drop (offset - p.first_byte)).take length).length ≤ length := by
        rw [List.length_take]
        omega
      omega

theorem c1_witness :
    (∃ m, BaseInject.modify fsNil rLit3 5 0 10 data10 = .ok m ∧ m.length = 10) ∧
    (∃ m, Rule.modify fsShadow2 0 5 [9, 9, 9, 9, 9] (.partT rShadow stC1) = .ok m ∧
      m.length = 5) :=
  ⟨c1_length_invariant.1 fsNil rLit3 5 0 10 data10 [88, 88, 88] rfl (by decide) (by decide)
      (by decide),
   c1_length_invariant.2 fsShadow2 rShadow stC1 part0 0 5 [9, 9, 9, 9, 9] rfl (by decide)⟩

/-- Helper for C6: every entry yielded by the partition-array loop comes from
one exactly-128-byte record whose type GUID is not all zero. -/
theorem read_partitions_from_shape (es : Nat) :
    ∀ (n : Nat) (stream : List Nat) (idx : Nat) (ps : List GPTPartition),
      read_partitions_from es stream idx n = .ok ps →
      ∀ p ∈ ps, ∃ chunk k, chunk.length = 128 ∧ p = entryOfChunk chunk k ∧
        chunk.take 16 ≠ List.replicate 16 0 := by
  intro n
  induction n with
  | zero =>
    intro stream idx ps h p hp
    simp only [read_partitions_from] at h
    injection h with h
    subst h
    cases hp
  | succ n ih =>
    intro stream idx ps h p hp
    simp only [read_partitions_from] at h
    by_cases hlt : (stream.take es).length < 128
    · rw [if_pos hlt] at h
      injection h with h
      subst h
      cases hp
    · rw [if_neg hlt] at h
      by_cases hne : (stream.take es).length ≠ 128
      · rw [if_pos hne] at h
        cases h
      · rw [if_neg hne] at h
        by_cases hz : (stream.take es).take 16 = List.replicate 16 0
        · rw [if_pos hz] at h
          exact ih _ _ _ h p hp
        · rw [if_neg hz] at h
          cases hrec : read_partitions_from es (stream.drop es) (idx + 1) n with
          | error e =>
            rw [hrec] at h
            cases h
          | ok rest =>
            rw [hrec] at h
            injection h with h
            subst h
            rw [List.mem_cons] at hp
            rcases hp with rfl | hp
            · exact ⟨stream.take es, idx, not_ne_iff.mp hne, rfl, hz⟩
            · exact ih _ _ _ hrec p hp

/-- C6: every entry yielded by a successful partition-array decode has a
non-all-zero 16-byte type GUID (all-zero slots are skipped) and a name equal
to the UTF-16 code units of the 72-byte name field of its 128-byte record
truncated at the first NUL code unit; and the synthetic stream with a valid
header and one non-zero-type entry named `"ESP"` parses into a snapshot with
one `Partition` named `"ESP"` whose byte range is
`[first_lba * 512, last_lba * 512) = [1024, 2048)`. -/
theorem c6_partition_decode :
    (∀ (data : List Nat) (hd : GPTHeader) (ps : List GPTPartition),
      read_partitions data hd = .ok ps → ∀ p ∈ ps,
        p.type ≠ List.replicate 16 0 ∧
        ∃ chunk : List Nat, chunk.length = 128 ∧ p.type = chunk.take 16 ∧
          p.name = (u16le ((chunk.drop 56).take 72)).takeWhile (fun u => u ≠ 0)) ∧
    parse [] synthStream 0 = (.ok (), [[([69, 83, 80], espPartitionDecoded)]]) := by
  constructor
  · intro data hd ps h p hp
    simp only [read_partitions] at h
    obtain ⟨chunk, k, hlen, rfl, hne⟩ :=
      read_partitions_from_shape hd.part_entry_size hd.num_part_entries _ _ ps h p hp
    exact ⟨hne, chunk, hlen, rfl, rfl⟩
  · rfl

theorem c6_witness :
    espEntry.type ≠ List.replicate 16 0 ∧
    ∃ chunk : List Nat, chunk.length = 128 ∧ espEntry.type = chunk.take 16 ∧
      espEntry.name = (u16le ((chunk.drop 56).take 72)).takeWhile (fun u => u ≠ 0) :=
  c6_partition_decode.1 synthStream synthHdr [espEntry] (by rfl) espEntry
    (List.mem_singleton.mpr rfl)

end BadUSB
